import Mathlib

/-!
Verification development for the `index_archival` batch job
(`bin/index_archival.py`): the job reads one night of aggregated alert
records, derives a secondary index view selected by an index-kind
identifier (underscore-joined column names), and pushes the resulting
row-keyed table to a wide-column store.

The embedding below models the script's own logic faithfully:
column selection, filtering, explosion of the per-detection history,
row-key construction with `concat_ws('_', ...)`, and the dispatch over
the first underscore-delimited token of the index-kind identifier.
External collaborators (the HEALPix projection `ang2pix`, the classifier
`extract_fink_classification`, the astropy angular-separation routine,
and the downloaded TNS catalog) are modelled as parameters of an
environment record, since the script only forwards their outputs.
-/

/-- Value stored in a dataframe cell: string, integer, rational (modelling
the floating-point columns), or SQL NULL. -/
inductive Val where
  | s (x : String)
  | i (x : Int)
  | q (x : Rat)
  | null
deriving DecidableEq, Repr

/-- Rendering of an integer as Spark's string cast produces it. -/
def intStr (n : Int) : String := toString n

/-- Rendering of a rational column value as a string (models the string
cast of a numeric column). -/
def ratStr (q : Rat) : String :=
  if q.den = 1 then toString q.num else toString q.num ++ "/" ++ toString q.den

/-- String rendering of a cell, `none` for SQL NULL (which
`concat_ws` skips). -/
def Val.render : Val → Option String
  | .null => none
  | .s x => some x
  | .i n => some (intStr n)
  | .q r => some (ratStr r)

/-- Spark's `isNotNull` on a cell. -/
def isNotNull : Val → Bool
  | .null => false
  | _ => true

/-- Rendered (non-null) components of a row key. -/
def renderKey (l : List Val) : List String := l.filterMap Val.render

/-- Join a list of strings with underscores (the separator used by every
`concat_ws` call in the script). -/
def joinWs : List String → String
  | [] => ""
  | [s] => s
  | s :: t :: rest => s ++ "_" ++ joinWs (t :: rest)

/-- Model of `concat_ws('_', ...)`: null cells are skipped, the rest are
cast to strings and joined with underscores. -/
def concatWs (l : List Val) : String := joinWs (renderKey l)

/-- Check that a character sequence occurs at the head of a list. -/
def seqAt : List Char → List Char → Bool
  | [], _ => true
  | _ :: _, [] => false
  | p :: ps, c :: cs => p == c && seqAt ps cs

/-- Check that a character sequence occurs somewhere in a list (model of
Python's `pat in s` substring test). -/
def hasSeq (pat : List Char) : List Char → Bool
  | [] => pat.isEmpty
  | c :: cs => seqAt pat (c :: cs) || hasSeq pat cs

/-- Model of Python's `'upper' in args.index_table`. -/
def hasUpper (s : String) : Bool := hasSeq ['u', 'p', 'p', 'e', 'r'] s.data

/-- Model of `columns[0].startswith('pixel')`. -/
def startsWithPix (s : String) : Bool := seqAt ['p', 'i', 'x', 'e', 'l'] s.data

/-- Helper for splitting a character list on underscores, accumulating the
current (reversed) token. -/
def splitUnderAux : List Char → List Char → List String
  | [], acc => [String.mk acc.reverse]
  | c :: cs, acc =>
    if c == '_' then String.mk acc.reverse :: splitUnderAux cs []
    else splitUnderAux cs (c :: acc)

/-- Model of Python's `s.split('_')` (keeps empty tokens, like Python). -/
def splitOnUS (s : String) : List String := splitUnderAux s.data []

/-- First underscore-delimited token of the index-kind identifier
(`columns[0]` in the script). -/
def firstTok (s : String) : String := (splitOnUS s).headD ""

/-- Characters up to the next occurrence of the literal `pixel` (used to
model `columns[0].split('pixel')[1]`). -/
def upToPixel : List Char → List Char
  | [] => []
  | c :: cs =>
    if seqAt ['p', 'i', 'x', 'e', 'l'] (c :: cs) then []
    else c :: upToPixel cs

/-- Parse a digit string to a natural number; `none` on the empty string
or a non-digit (models the fatal `int(...)` cast for the inputs the job
actually receives). -/
def digitsToNat (l : List Char) : Option Nat :=
  if l = [] then none
  else l.foldl
    (fun acc c => acc.bind fun n =>
      if '0' ≤ c ∧ c ≤ '9' then some (10 * n + (c.toNat - '0'.toNat)) else none)
    (some 0)

/-- Model of `int(columns[0].split('pixel')[1])` for a token that starts
with `pixel`: the digits between the leading `pixel` and the next
occurrence of `pixel` (or the end). -/
def nsideOf (tok : String) : Option Nat := digitsToNat (upToPixel (tok.data.drop 5))

/-- Absence of underscores in a string (needed for row-key injectivity). -/
def noUS (s : String) : Prop := '_' ∉ s.data

instance noUS_decidable (s : String) : Decidable (noUS s) :=
  inferInstanceAs (Decidable ('_' ∉ s.data))

/-- One entry of the nested `prv_candidates` history of an alert: the five
parallel arrays zipped by `arrays_zip` in the script. All cells are
nullable (`magpsf` is null exactly on upper-limit measurements). -/
structure Prv where
  jd : Val
  fid : Val
  magpsf : Val
  sigmapsf : Val
  diffmaglim : Val
deriving DecidableEq, Repr

/-- One aggregated alert record. The fields the script inspects are typed;
every other column of the aggregated schema is reached through `extra`
(the portal schema is wider than what the logic touches). -/
structure Alert where
  objectId : String
  ra : Rat
  dec : Rat
  jd : Rat
  roid : Int
  tracklet : Option String
  cdsxmatch : Val
  mulens : Val
  snn_snia_vs_nonia : Val
  snn_sn_vs_all : Val
  rf_snia_vs_nonia : Val
  ndethist : Val
  drb : Val
  classtar : Val
  jdstarthist : Val
  rf_kn_vs_nonkn : Val
  prv_candidates : List Prv
  extra : String → Val

/-- Cell of a nullable string column. -/
def optStr : Option String → Val
  | none => Val.null
  | some s => Val.s s

/-- Column access by name on an alert record. -/
def getCol (a : Alert) (c : String) : Val :=
  if c = "objectId" then .s a.objectId
  else if c = "ra" then .q a.ra
  else if c = "dec" then .q a.dec
  else if c = "jd" then .q a.jd
  else if c = "roid" then .i a.roid
  else if c = "tracklet" then optStr a.tracklet
  else if c = "cdsxmatch" then a.cdsxmatch
  else if c = "mulens" then a.mulens
  else if c = "snn_snia_vs_nonia" then a.snn_snia_vs_nonia
  else if c = "snn_sn_vs_all" then a.snn_sn_vs_all
  else if c = "rf_snia_vs_nonia" then a.rf_snia_vs_nonia
  else if c = "ndethist" then a.ndethist
  else if c = "drb" then a.drb
  else if c = "classtar" then a.classtar
  else if c = "jdstarthist" then a.jdstarthist
  else if c = "rf_kn_vs_nonkn" then a.rf_kn_vs_nonkn
  else a.extra c

/-- Column access after a `withColumn` call: the added/replaced columns
shadow the record's own columns. -/
def getColW (a : Alert) (added : List (String × Val)) (c : String) : Val :=
  match added.lookup c with
  | some v => v
  | none => getCol a c

/-- Row key produced by `concat_ws('_', *names)` where `names` are the
token-named columns of the index-kind identifier, evaluated after the
branch's `withColumn` additions. -/
def keyOf (a : Alert) (added : List (String × Val)) (columns : List String) : String :=
  concatWs (columns.map (getColW a added))

/-- The fixed common projection (`common_cols` in the script). -/
def commonCols : List String :=
  ["objectId", "candid", "publisher", "rcid", "chipsf", "distnr",
   "ra", "dec", "jd", "fid", "nid", "field", "xpos", "ypos", "rb",
   "ssdistnr", "ssmagnr", "ssnamenr", "jdstarthist", "jdendhist", "tooflag",
   "sgscore1", "distpsnr1", "neargaia", "maggaia", "nmtchps", "diffmaglim",
   "magpsf", "sigmapsf", "magnr", "sigmagnr", "magzpsci", "isdiffpos",
   "cdsxmatch",
   "roid",
   "mulens",
   "DR3Name",
   "Plx",
   "e_Plx",
   "gcvs",
   "vsx",
   "snn_snia_vs_nonia", "snn_sn_vs_all", "rf_snia_vs_nonia",
   "classtar", "drb", "ndethist", "rf_kn_vs_nonkn", "tracklet"]

/-- Values of the common projection for one record. -/
def commonProj (a : Alert) : List (String × Val) :=
  commonCols.map fun c => (c, getCol a c)

/-- One row of the produced index table: the computed row key plus the
selected output columns. -/
structure Row where
  key : String
  cols : List (String × Val)
deriving DecidableEq, Repr

/-- One entry of the downloaded TNS catalog (`ra`, `declination`, `type`;
`type` is `none` when missing, which the script filters out with
`~pdf_tns['type'].isna()`). -/
structure TnsEntry where
  ra : Rat
  declination : Rat
  type : Option String

/-- Environment of external collaborators. Modelled from the spec: the
HEALPix projection (`ang2pix`), the classifier
(`extract_fink_classification`), the astropy angular-separation function
(in degrees, as `d2d.degree` is used), the downloaded TNS catalog
snapshot, and the configured output database name. The script only
forwards their outputs, so they are parameters of the embedding. -/
structure Env where
  ang2pix : Rat → Rat → Nat → Int
  classify : List Val → String
  sep : Rat × Rat → Rat × Rat → Rat
  tnsCatalog : List TnsEntry
  scienceDbName : String

/-- The fixed, ordered list of arguments the script passes to
`extract_fink_classification` (thirteen of them, in source order). -/
def classInputs (a : Alert) : List Val :=
  [a.cdsxmatch, Val.i a.roid, a.mulens,
   a.snn_snia_vs_nonia, a.snn_sn_vs_all, a.rf_snia_vs_nonia,
   a.ndethist, a.drb, a.classtar,
   Val.q a.jd, a.jdstarthist, a.rf_kn_vs_nonkn, optStr a.tracklet]

/-- Spark's null-safe `col != lit` filter on the nullable tracklet
column: a NULL compares to NULL, which `filter` treats as false. -/
def trackletNeq (v : Option String) (lit : String) : Bool :=
  match v with
  | none => false
  | some s => s != lit

/-- One exploded per-detection row (`df_ex` in the script): the result of
`arrays_zip` over the five history arrays followed by `explode`. -/
structure ExRow where
  objectId : String
  jd : Val
  fid : Val
  magpsf : Val
  sigmapsf : Val
  diffmaglim : Val
deriving DecidableEq, Repr

/-- Explosion of the zipped history arrays: one row per historical
detection of each alert (alerts with an empty history contribute none). -/
def explodedRows (al : List Alert) : List ExRow :=
  al.flatMap fun a => a.prv_candidates.map fun p =>
    ⟨a.objectId, p.jd, p.fid, p.magpsf, p.sigmapsf, p.diffmaglim⟩

/-- Row key of an exploded row: `concat_ws('_', 'objectId', 'tmp.jd')`. -/
def exKey (r : ExRow) : String := concatWs [Val.s r.objectId, r.jd]

/-- The input dataframe after the column-subset restriction: either the
wide portal projection, or (when the identifier contains the substring
`upper`) only `objectId` plus the five `prv_candidates` arrays. -/
inductive DFrame where
  | wide (alerts : List Alert)
  | narrow (alerts : List Alert)

/-- Data of a wide frame; `none` models the engine's analysis error when
a branch references portal columns missing from the narrowed frame. -/
def DFrame.wideData : DFrame → Option (List Alert)
  | .wide al => some al
  | .narrow _ => none

/-- Data of a narrowed frame; `none` models the analysis error raised by
`arrays_zip` over the scalar columns of the wide frame. -/
def DFrame.narrowData : DFrame → Option (List Alert)
  | .narrow al => some al
  | .wide _ => none

/-- The column-subset restriction applied before branch dispatch:
`if 'upper' in args.index_table` narrows the frame, anything else keeps
the wide portal projection. -/
def restrictFrame (indexTable : String) (alerts : List Alert) : DFrame :=
  if hasUpper indexTable then .narrow alerts else .wide alerts

/-- The dispatch branches of the `if/elif` chain of `main`. -/
inductive Branch where
  | pixel
  | cls
  | ssn
  | trk
  | upper
  | uppervalid
  | tns
  | dflt
deriving DecidableEq, Repr

/-- The dispatch conditions of the `if/elif` chain, in source order, all
evaluated on `columns[0]`. -/
def dispatchTok (tok : String) : Branch :=
  if startsWithPix tok then .pixel
  else if tok = "class" then .cls
  else if tok = "ssnamenr" then .ssn
  else if tok = "tracklet" then .trk
  else if tok = "upper" then .upper
  else if tok = "uppervalid" then .uppervalid
  else if tok = "tns" then .tns
  else .dflt

/-- Branch selected by an index-kind identifier. -/
def branchOf (indexTable : String) : Branch := dispatchTok (firstTok indexTable)

/-- Rows of the pixel branch: a `pixel<N>` column holding the HEALPix
index is added, the key is `concat_ws` of the token-named columns, and
only `objectId` is kept besides the key. -/
def pixelRowsOf (env : Env) (columns : List String) (nside : Nat) (al : List Alert) : List Row :=
  al.map fun a =>
    ⟨keyOf a [(columns.headD "", Val.i (env.ang2pix a.ra a.dec nside))] columns,
     [("objectId", Val.s a.objectId)]⟩

/-- Rows of the classification branch: a `class` column holding the
classification label is added, and the common projection is kept. -/
def classRowsOf (env : Env) (columns : List String) (al : List Alert) : List Row :=
  al.map fun a =>
    ⟨keyOf a [("class", Val.s (env.classify (classInputs a)))] columns, commonProj a⟩

/-- Rows of the minor-planet branch: only records with `roid == 3`. -/
def ssnRowsOf (columns : List String) (al : List Alert) : List Row :=
  (al.filter fun a => a.roid == 3).map fun a => ⟨keyOf a [] columns, commonProj a⟩

/-- Rows of the tracklet branch: the two sentinel values `'null'` and `''`
are filtered out by two successive null-safe filters. -/
def trkRowsOf (columns : List String) (al : List Alert) : List Row :=
  ((al.filter fun a => trackletNeq a.tracklet "null").filter
      fun a => trackletNeq a.tracklet "").map
    fun a => ⟨keyOf a [] columns, commonProj a⟩

/-- Rows of the upper-limit branch: exploded history rows whose `magpsf`
is null (`~isNotNull`), with the always-null `magpsf` and `sigmapsf`
columns dropped. -/
def upperRowsOf (al : List Alert) : List Row :=
  ((explodedRows al).filter fun r => !(isNotNull r.magpsf)).map fun r =>
    ⟨exKey r,
     [("objectId", Val.s r.objectId), ("jd", r.jd), ("fid", r.fid),
      ("diffmaglim", r.diffmaglim)]⟩

/-- Rows of the valid-measurement branch: exploded history rows whose
`magpsf` is present. -/
def uppervalidRowsOf (al : List Alert) : List Row :=
  ((explodedRows al).filter fun r => isNotNull r.magpsf).map fun r =>
    ⟨exKey r,
     [("objectId", Val.s r.objectId), ("jd", r.jd), ("fid", r.fid),
      ("magpsf", r.magpsf), ("sigmapsf", r.sigmapsf),
      ("diffmaglim", r.diffmaglim)]⟩

/-- TNS catalog entries that survive the `~type.isna()` filter, as
(ra, declination, type) triples. -/
def tnsFiltered (cat : List TnsEntry) : List (Rat × Rat × String) :=
  cat.filterMap fun e => e.type.map fun t => (e.ra, e.declination, t)

/-- Nearest catalog entry by angular separation (first of the minima, as
`match_to_catalog_sky` returns a single best match); `none` on an empty
catalog, where the cross-match degenerates to no matches. -/
def nearestTns (sep : Rat × Rat → Rat × Rat → Rat) (cat : List (Rat × Rat × String))
    (p : Rat × Rat) : Option (Rat × Rat × String) :=
  cat.foldl
    (fun acc e =>
      match acc with
      | none => some e
      | some b => if sep p (e.1, e.2.1) < sep p (b.1, b.2.1) then some e else acc)
    none

/-- Label computed for one alert position inside `crossmatch_with_tns`:
the type of the nearest filtered catalog entry when its separation is
strictly below 1.5/3600 degrees, the empty string otherwise. -/
def rawLabel (env : Env) (a : Alert) : String :=
  match nearestTns env.sep (tnsFiltered env.tnsCatalog) (a.ra, a.dec) with
  | none => ""
  | some e =>
    if env.sep (a.ra, a.dec) (e.1, e.2.1) < 1.5 / 3600 then e.2.2 else ""

/-- Label returned by the UDF for one alert: the `to_return` lookup takes
the label of the first row of the batch carrying the same `objectId`
(the not-found case cannot fire for a member of the batch). -/
def tnsLabel (env : Env) (al : List Alert) (a : Alert) : String :=
  match al.find? (fun b => b.objectId == a.objectId) with
  | some b => rawLabel env b
  | none => ""

/-- Alerts tagged with their `tns` label (`withColumn('tns', ...)`). -/
def tnsTagged (env : Env) (al : List Alert) : List (Alert × String) :=
  al.map fun a => (a, tnsLabel env al a)

/-- Rows of the TNS branch: tagged records with a non-empty label; the
key sees the added `tns` column, but the pushed columns are only the
common projection (the `tns` column is dropped before the push). -/
def tnsRowsOf (env : Env) (columns : List String) (al : List Alert) : List Row :=
  ((tnsTagged env al).filter fun p => p.2 != "").map fun p =>
    ⟨keyOf p.1 [("tns", Val.s p.2)] columns, commonProj p.1⟩

/-- Rows of the default branch: key from all token-named columns, common
projection. -/
def defaultRowsOf (columns : List String) (al : List Alert) : List Row :=
  al.map fun a => ⟨keyOf a [] columns, commonProj a⟩

/-- The produced index view: the store table name
(`science_db_name + '.' + columns[0]`), the name of the row-key column,
and the rows handed to `push_to_hbase`. -/
structure Output where
  tableName : String
  rowKeyName : String
  rows : List Row
deriving DecidableEq, Repr

/-- The whole job for one index-kind identifier: restriction of the
column subset, dispatch on the first token, branch-specific filtering and
row-key construction. `none` models the uncaught fatal errors (schema
mismatch after the narrowing, or a failing `int(...)` parse of the pixel
resolution). Side effects (the `cache`/`count` of the TNS branch and the
bulk push) do not alter the produced view and are not modelled. -/
def runIndex (env : Env) (indexTable : String) (alerts : List Alert) : Option Output :=
  let columns := splitOnUS indexTable
  let tok := firstTok indexTable
  let tableName := env.scienceDbName ++ "." ++ tok
  let df := restrictFrame indexTable alerts
  match dispatchTok tok with
  | Branch.pixel =>
    match nsideOf tok, DFrame.wideData df with
    | some nside, some al => some ⟨tableName, indexTable, pixelRowsOf env columns nside al⟩
    | _, _ => none
  | Branch.cls =>
    (DFrame.wideData df).map fun al => ⟨tableName, indexTable, classRowsOf env columns al⟩
  | Branch.ssn =>
    (DFrame.wideData df).map fun al => ⟨tableName, indexTable, ssnRowsOf columns al⟩
  | Branch.trk =>
    (DFrame.wideData df).map fun al => ⟨tableName, indexTable, trkRowsOf columns al⟩
  | Branch.upper =>
    (DFrame.narrowData df).map fun al => ⟨tableName, "objectId_jd", upperRowsOf al⟩
  | Branch.uppervalid =>
    (DFrame.narrowData df).map fun al => ⟨tableName, "objectId_jd", uppervalidRowsOf al⟩
  | Branch.tns =>
    (DFrame.wideData df).map fun al => ⟨tableName, indexTable, tnsRowsOf env columns al⟩
  | Branch.dflt =>
    (DFrame.wideData df).map fun al => ⟨tableName, indexTable, defaultRowsOf columns al⟩

/-- The per-row lists of key source values, branch by branch: the row key
of every produced row is `concat_ws('_', ...)` of exactly these cell
values, each a function of the declared source columns of its record. -/
def keySources (env : Env) (indexTable : String) (alerts : List Alert) : List (List Val) :=
  let columns := splitOnUS indexTable
  let tok := firstTok indexTable
  match dispatchTok tok with
  | Branch.pixel =>
    match nsideOf tok with
    | some nside =>
      alerts.map fun a =>
        columns.map (getColW a [(columns.headD "", Val.i (env.ang2pix a.ra a.dec nside))])
    | none => []
  | Branch.cls =>
    alerts.map fun a =>
      columns.map (getColW a [("class", Val.s (env.classify (classInputs a)))])
  | Branch.ssn =>
    (alerts.filter fun a => a.roid == 3).map fun a => columns.map (getColW a [])
  | Branch.trk =>
    ((alerts.filter fun a => trackletNeq a.tracklet "null").filter
        fun a => trackletNeq a.tracklet "").map
      fun a => columns.map (getColW a [])
  | Branch.upper =>
    ((explodedRows alerts).filter fun r => !(isNotNull r.magpsf)).map fun r =>
      [Val.s r.objectId, r.jd]
  | Branch.uppervalid =>
    ((explodedRows alerts).filter fun r => isNotNull r.magpsf).map fun r =>
      [Val.s r.objectId, r.jd]
  | Branch.tns =>
    ((tnsTagged env alerts).filter fun p => p.2 != "").map fun p =>
      columns.map (getColW p.1 [("tns", Val.s p.2)])
  | Branch.dflt =>
    alerts.map fun a => columns.map (getColW a [])

/-- Sample environment used to instantiate theorems on concrete inputs:
a constant pixelization, a constant classifier, a zero separation, a
one-entry TNS catalog, and the database name `fink`. -/
def env0 : Env :=
  { ang2pix := fun _ _ _ => 0
    classify := fun _ => "SN"
    sep := fun _ _ => 0
    tnsCatalog := [⟨0, 0, some "SN Ia"⟩]
    scienceDbName := "fink" }

/-- Sample alert: the single record of the end-to-end scenario
(ra = 10.0, dec = 20.0), with a well-formed tracklet and two history
entries (one upper limit, one valid measurement). -/
def a0 : Alert :=
  { objectId := "ZTF1"
    ra := 10
    dec := 20
    jd := 2459000
    roid := 3
    tracklet := some "TRCK0001"
    cdsxmatch := Val.s "Unknown"
    mulens := Val.q 0
    snn_snia_vs_nonia := Val.q 0
    snn_sn_vs_all := Val.q 0
    rf_snia_vs_nonia := Val.q 0
    ndethist := Val.i 2
    drb := Val.q 1
    classtar := Val.q 1
    jdstarthist := Val.q 2458000
    rf_kn_vs_nonkn := Val.q 0
    prv_candidates :=
      [⟨Val.q 2458990, Val.i 1, Val.null, Val.null, Val.q 19⟩,
       ⟨Val.q 2458995, Val.i 2, Val.q 18, Val.q 1, Val.q 19⟩]
    extra := fun _ => Val.null }

/-- Second sample alert: different object, no tracklet (older-era empty
sentinel), not a minor-planet candidate, empty history. -/
def a1 : Alert :=
  { objectId := "ZTF2"
    ra := 11
    dec := 21
    jd := 2459001
    roid := 0
    tracklet := some ""
    cdsxmatch := Val.s "Unknown"
    mulens := Val.q 0
    snn_snia_vs_nonia := Val.q 0
    snn_sn_vs_all := Val.q 0
    rf_snia_vs_nonia := Val.q 0
    ndethist := Val.i 1
    drb := Val.q 1
    classtar := Val.q 1
    jdstarthist := Val.q 2458001
    rf_kn_vs_nonkn := Val.q 0
    prv_candidates := []
    extra := fun _ => Val.null }

/-- Third sample alert: newer-era `'null'` sentinel tracklet, null
tracklet column sibling used to exercise the tracklet filter. -/
def a2 : Alert :=
  { objectId := "ZTF3"
    ra := 12
    dec := 22
    jd := 2459002
    roid := 2
    tracklet := some "null"
    cdsxmatch := Val.s "Unknown"
    mulens := Val.q 0
    snn_snia_vs_nonia := Val.q 0
    snn_sn_vs_all := Val.q 0
    rf_snia_vs_nonia := Val.q 0
    ndethist := Val.i 1
    drb := Val.q 1
    classtar := Val.q 1
    jdstarthist := Val.q 2458002
    rf_kn_vs_nonkn := Val.q 0
    prv_candidates := []
    extra := fun _ => Val.null }

/-- Fourth sample alert: absent (NULL) tracklet. -/
def a3 : Alert :=
  { objectId := "ZTF4"
    ra := 13
    dec := 23
    jd := 2459003
    roid := 3
    tracklet := none
    cdsxmatch := Val.s "Unknown"
    mulens := Val.q 0
    snn_snia_vs_nonia := Val.q 0
    snn_sn_vs_all := Val.q 0
    rf_snia_vs_nonia := Val.q 0
    ndethist := Val.i 1
    drb := Val.q 1
    classtar := Val.q 1
    jdstarthist := Val.q 2458003
    rf_kn_vs_nonkn := Val.q 0
    prv_candidates := []
    extra := fun _ => Val.null }

/-- Environment for the TNS duplicate-identifier scenario: the separation
is 0 at the catalog position of the first detection and 1 degree
elsewhere, and the catalog holds one confirmed entry at the origin. -/
def envC4 : Env :=
  { ang2pix := fun _ _ _ => 0
    classify := fun _ => "SN"
    sep := fun p _ => if p.1 == 0 then 0 else 1
    tnsCatalog := [⟨0, 0, some "SN Ia"⟩]
    scienceDbName := "fink" }

/-- First detection of the duplicated object: at the catalog position. -/
def a4a : Alert :=
  { objectId := "ZTFX"
    ra := 0
    dec := 0
    jd := 2459000
    roid := 0
    tracklet := none
    cdsxmatch := Val.s "Unknown"
    mulens := Val.q 0
    snn_snia_vs_nonia := Val.q 0
    snn_sn_vs_all := Val.q 0
    rf_snia_vs_nonia := Val.q 0
    ndethist := Val.i 1
    drb := Val.q 1
    classtar := Val.q 1
    jdstarthist := Val.q 2458000
    rf_kn_vs_nonkn := Val.q 0
    prv_candidates := []
    extra := fun _ => Val.null }

/-- Second detection of the duplicated object: same `objectId`, one
degree away from the catalog entry. -/
def a4b : Alert :=
  { objectId := "ZTFX"
    ra := 50
    dec := 0
    jd := 2459001
    roid := 0
    tracklet := none
    cdsxmatch := Val.s "Unknown"
    mulens := Val.q 0
    snn_snia_vs_nonia := Val.q 0
    snn_sn_vs_all := Val.q 0
    rf_snia_vs_nonia := Val.q 0
    ndethist := Val.i 1
    drb := Val.q 1
    classtar := Val.q 1
    jdstarthist := Val.q 2458001
    rf_kn_vs_nonkn := Val.q 0
    prv_candidates := []
    extra := fun _ => Val.null }

/-- Fifth sample alert: a second well-formed tracklet identifier, for
the row-key uniqueness witness. -/
def a5 : Alert :=
  { a0 with objectId := "ZTF5", jd := 2459005, tracklet := some "TRCK0002" }

/-- Sample alert with an underscore inside its object identifier, for
the row-key collision counterexample. -/
def a6 : Alert :=
  { a0 with objectId := "a_b", cdsxmatch := Val.s "c" }

/-- Sample alert whose key fields differ from those of `a6` yet join to
the same row key. -/
def a7 : Alert :=
  { a0 with objectId := "a", cdsxmatch := Val.s "b_c" }

/-- The concrete tracklet output of `env0` on `[a0, a5]`. -/
def trkOut0 : Output :=
  ⟨env0.scienceDbName ++ "." ++ "tracklet", "tracklet",
   trkRowsOf (splitOnUS "tracklet") [a0, a5]⟩

theorem str_data_append (a b : String) : (a ++ b).data = a.data ++ b.data :=
  String.data_append a b

theorem str_ext {a b : String} (h : a.data = b.data) : a = b := by
  cases a; cases b; exact congrArg String.mk h

theorem underscore_data : ("_" : String).data = ['_'] := rfl

theorem chars_split (s₁ : List Char) :
    ∀ s₂ r₁ r₂ : List Char, '_' ∉ s₁ → '_' ∉ s₂ →
      s₁ ++ '_' :: r₁ = s₂ ++ '_' :: r₂ → s₁ = s₂ ∧ r₁ = r₂ := by
  induction s₁ with
  | nil =>
    intro s₂ r₁ r₂ h1 h2 h
    cases s₂ with
    | nil => exact ⟨rfl, by simpa using h⟩
    | cons c t =>
      exfalso
      simp only [List.nil_append, List.cons_append, List.cons.injEq] at h
      exact h2 (h.1 ▸ List.mem_cons_self c t)
  | cons c t ih =>
    intro s₂ r₁ r₂ h1 h2 h
    cases s₂ with
    | nil =>
      exfalso
      simp only [List.nil_append, List.cons_append, List.cons.injEq] at h
      exact h1 (h.1.symm ▸ List.mem_cons_self c t)
    | cons d u =>
      simp only [List.cons_append, List.cons.injEq] at h
      obtain ⟨hcd, hrest⟩ := h
      have h1' : '_' ∉ t := fun hm => h1 (List.mem_cons_of_mem _ hm)
      have h2' : '_' ∉ u := fun hm => h2 (List.mem_cons_of_mem _ hm)
      obtain ⟨he, hr⟩ := ih u r₁ r₂ h1' h2' hrest
      exact ⟨by rw [hcd, he], hr⟩

theorem str_split {a₁ b₁ a₂ b₂ : String} (h₁ : noUS a₁) (h₂ : noUS a₂)
    (h : a₁ ++ "_" ++ b₁ = a₂ ++ "_" ++ b₂) : a₁ = a₂ ∧ b₁ = b₂ := by
  have hd : a₁.data ++ '_' :: b₁.data = a₂.data ++ '_' :: b₂.data := by
    have e₁ := congrArg String.data h
    simpa [str_data_append, underscore_data] using e₁
  obtain ⟨ha, hb⟩ := chars_split a₁.data a₂.data b₁.data b₂.data h₁ h₂ hd
  exact ⟨str_ext ha, str_ext hb⟩

theorem joinWs_cons (s t : String) (l : List String) :
    joinWs (s :: t :: l) = s ++ "_" ++ joinWs (t :: l) := rfl

theorem mem_underscore_join (b : String) (l : List String) :
    '_' ∈ (b ++ "_" ++ joinWs l).data := by
  simp [str_data_append, underscore_data]

theorem joinWs_inj : ∀ l₁ l₂ : List String,
    l₁ ≠ [] → l₂ ≠ [] → (∀ s ∈ l₁, noUS s) → (∀ s ∈ l₂, noUS s) →
    joinWs l₁ = joinWs l₂ → l₁ = l₂ := by
  intro l₁
  induction l₁ with
  | nil => intro l₂ h1 _ _ _ _; exact absurd rfl h1
  | cons a t ih =>
    intro l₂ _ h2 hu1 hu2 heq
    cases l₂ with
    | nil => exact absurd rfl h2
    | cons b u =>
      cases t with
      | nil =>
        cases u with
        | nil =>
          have : a = b := by simpa [joinWs] using heq
          rw [this]
        | cons v w =>
          exfalso
          have hm := mem_underscore_join b (v :: w)
          rw [← joinWs_cons, ← heq] at hm
          exact hu1 a (List.mem_cons_self _ _) hm
      | cons c d =>
        cases u with
        | nil =>
          exfalso
          have hm := mem_underscore_join a (c :: d)
          rw [← joinWs_cons, heq] at hm
          exact hu2 b (List.mem_cons_self _ _) hm
        | cons v w =>
          rw [joinWs_cons, joinWs_cons] at heq
          obtain ⟨hab, hrest⟩ :=
            str_split (hu1 a (List.mem_cons_self _ _)) (hu2 b (List.mem_cons_self _ _)) heq
          have ht := ih (v :: w) (List.cons_ne_nil _ _) (List.cons_ne_nil _ _)
            (fun s hs => hu1 s (List.mem_cons_of_mem _ hs))
            (fun s hs => hu2 s (List.mem_cons_of_mem _ hs)) hrest
          rw [hab, ht]

theorem pairwise_join_of_pairwise (rs : List (List String))
    (hne : ∀ l ∈ rs, l ≠ []) (hus : ∀ l ∈ rs, ∀ s ∈ l, noUS s)
    (hd : rs.Pairwise (· ≠ ·)) : (rs.map joinWs).Pairwise (· ≠ ·) := by
  rw [List.pairwise_map]
  refine hd.imp_of_mem ?_
  intro a b ha hb hab heq
  exact hab (joinWs_inj a b (hne a ha) (hne b hb) (hus a ha) (hus b hb) heq)

theorem splitUnderAux_headD (l : List Char) :
    ∀ acc : List Char, (splitUnderAux l acc).headD "" =
      String.mk (acc.reverse ++ l.takeWhile fun c => !(c == '_')) := by
  induction l with
  | nil => intro acc; simp [splitUnderAux]
  | cons c cs ih =>
    intro acc
    by_cases hc : c = '_'
    · subst hc; simp [splitUnderAux]
    · have hcb : (c == '_') = false := by simpa using hc
      rw [show splitUnderAux (c :: cs) acc = splitUnderAux cs (c :: acc) from by
            simp [splitUnderAux, hcb],
          ih (c :: acc)]
      simp [List.takeWhile_cons, hcb, List.reverse_cons, List.append_assoc]

theorem firstTok_data (s : String) :
    (firstTok s).data = s.data.takeWhile fun c => !(c == '_') := by
  show ((splitUnderAux s.data []).headD "").data = _
  rw [splitUnderAux_headD s.data []]
  simp

theorem seqAt_append (p : List Char) :
    ∀ l r : List Char, seqAt p l = true → seqAt p (l ++ r) = true := by
  induction p with
  | nil => intro l r _; simp [seqAt]
  | cons x xs ih =>
    intro l r h
    cases l with
    | nil => simp [seqAt] at h
    | cons c cs =>
      simp only [seqAt, Bool.and_eq_true, beq_iff_eq] at h
      simpa [seqAt, h.1] using ih cs r h.2

theorem hasSeq_of_seqAt (pat l : List Char) (hne : pat ≠ [])
    (h : seqAt pat l = true) : hasSeq pat l = true := by
  cases l with
  | nil => cases pat with
    | nil => exact absurd rfl hne
    | cons x xs => simp [seqAt] at h
  | cons c cs => simp [hasSeq, h]

theorem hasUpper_of_firstTok (k : String)
    (h : seqAt ['u', 'p', 'p', 'e', 'r'] (firstTok k).data = true) :
    hasUpper k = true := by
  have hk : k.data = (firstTok k).data ++ k.data.dropWhile (fun c => !(c == '_')) := by
    rw [firstTok_data]
    exact (List.takeWhile_append_dropWhile _ _).symm
  rw [hasUpper, hk]
  exact hasSeq_of_seqAt _ _ (by decide) (seqAt_append _ _ _ h)

theorem wideData_restrict (k : String) (alerts al : List Alert)
    (h : DFrame.wideData (restrictFrame k alerts) = some al) : al = alerts := by
  by_cases hU : hasUpper k <;> simp [restrictFrame, hU, DFrame.wideData] at h
  exact h.symm

theorem narrowData_restrict (k : String) (alerts al : List Alert)
    (h : DFrame.narrowData (restrictFrame k alerts) = some al) : al = alerts := by
  by_cases hU : hasUpper k <;> simp [restrictFrame, hU, DFrame.narrowData] at h
  exact h.symm

theorem run_pixel (env : Env) (k : String) (alerts : List Alert) (nside : Nat)
    (hp : startsWithPix (firstTok k) = true) (hn : nsideOf (firstTok k) = some nside)
    (hU : hasUpper k = false) :
    runIndex env k alerts =
      some ⟨env.scienceDbName ++ "." ++ firstTok k, k,
        pixelRowsOf env (splitOnUS k) nside alerts⟩ := by
  simp only [runIndex]
  rw [show dispatchTok (firstTok k) = Branch.pixel from by simp [dispatchTok, hp], hn]
  simp [restrictFrame, hU, DFrame.wideData]

theorem run_cls (env : Env) (k : String) (alerts : List Alert)
    (hd : firstTok k = "class") (hU : hasUpper k = false) :
    runIndex env k alerts =
      some ⟨env.scienceDbName ++ "." ++ "class", k,
        classRowsOf env (splitOnUS k) alerts⟩ := by
  simp only [runIndex]
  rw [hd, show dispatchTok "class" = Branch.cls from by decide]
  simp [restrictFrame, hU, DFrame.wideData]

theorem run_ssn (env : Env) (k : String) (alerts : List Alert)
    (hd : firstTok k = "ssnamenr") (hU : hasUpper k = false) :
    runIndex env k alerts =
      some ⟨env.scienceDbName ++ "." ++ "ssnamenr", k,
        ssnRowsOf (splitOnUS k) alerts⟩ := by
  simp only [runIndex]
  rw [hd, show dispatchTok "ssnamenr" = Branch.ssn from by decide]
  simp [restrictFrame, hU, DFrame.wideData]

theorem run_trk (env : Env) (k : String) (alerts : List Alert)
    (hd : firstTok k = "tracklet") (hU : hasUpper k = false) :
    runIndex env k alerts =
      some ⟨env.scienceDbName ++ "." ++ "tracklet", k,
        trkRowsOf (splitOnUS k) alerts⟩ := by
  simp only [runIndex]
  rw [hd, show dispatchTok "tracklet" = Branch.trk from by decide]
  simp [restrictFrame, hU, DFrame.wideData]

theorem run_upper (env : Env) (k : String) (alerts : List Alert)
    (hd : firstTok k = "upper") :
    runIndex env k alerts =
      some ⟨env.scienceDbName ++ "." ++ "upper", "objectId_jd", upperRowsOf alerts⟩ := by
  have hU : hasUpper k = true := hasUpper_of_firstTok k (by rw [hd]; decide)
  simp only [runIndex]
  rw [hd, show dispatchTok "upper" = Branch.upper from by decide]
  simp [restrictFrame, hU, DFrame.narrowData]

theorem run_uppervalid (env : Env) (k : String) (alerts : List Alert)
    (hd : firstTok k = "uppervalid") :
    runIndex env k alerts =
      some ⟨env.scienceDbName ++ "." ++ "uppervalid", "objectId_jd",
        uppervalidRowsOf alerts⟩ := by
  have hU : hasUpper k = true := hasUpper_of_firstTok k (by rw [hd]; decide)
  simp only [runIndex]
  rw [hd, show dispatchTok "uppervalid" = Branch.uppervalid from by decide]
  simp [restrictFrame, hU, DFrame.narrowData]

theorem run_tns (env : Env) (k : String) (alerts : List Alert)
    (hd : firstTok k = "tns") (hU : hasUpper k = false) :
    runIndex env k alerts =
      some ⟨env.scienceDbName ++ "." ++ "tns", k,
        tnsRowsOf env (splitOnUS k) alerts⟩ := by
  simp only [runIndex]
  rw [hd, show dispatchTok "tns" = Branch.tns from by decide]
  simp [restrictFrame, hU, DFrame.wideData]

theorem run_dflt (env : Env) (k : String) (alerts : List Alert)
    (hd : dispatchTok (firstTok k) = Branch.dflt) (hU : hasUpper k = false) :
    runIndex env k alerts =
      some ⟨env.scienceDbName ++ "." ++ firstTok k, k,
        defaultRowsOf (splitOnUS k) alerts⟩ := by
  simp only [runIndex]
  rw [hd]
  simp [restrictFrame, hU, DFrame.wideData]

theorem keys_eq (env : Env) (k : String) (alerts : List Alert) (out : Output)
    (h : runIndex env k alerts = some out) :
    out.rows.map Row.key = (keySources env k alerts).map concatWs := by
  simp only [runIndex] at h
  simp only [keySources]
  cases hb : dispatchTok (firstTok k) <;> rw [hb] at h
  case pixel =>
    cases hn : nsideOf (firstTok k) <;> rw [hn] at h
    case none => simp at h
    case some nside =>
      cases hdf : DFrame.wideData (restrictFrame k alerts) <;> rw [hdf] at h
      case none => simp at h
      case some al =>
        rw [wideData_restrict k alerts al hdf] at h
        simp only [Option.some.injEq] at h
        subst h
        simp [pixelRowsOf, keyOf, List.map_map, Function.comp]
  case cls =>
    cases hdf : DFrame.wideData (restrictFrame k alerts) <;> rw [hdf] at h
    case none => simp at h
    case some al =>
      rw [wideData_restrict k alerts al hdf] at h
      simp only [Option.map_some', Option.some.injEq] at h
      subst h
      simp [classRowsOf, keyOf, List.map_map, Function.comp]
  case ssn =>
    cases hdf : DFrame.wideData (restrictFrame k alerts) <;> rw [hdf] at h
    case none => simp at h
    case some al =>
      rw [wideData_restrict k alerts al hdf] at h
      simp only [Option.map_some', Option.some.injEq] at h
      subst h
      simp [ssnRowsOf, keyOf, List.map_map, Function.comp]
  case trk =>
    cases hdf : DFrame.wideData (restrictFrame k alerts) <;> rw [hdf] at h
    case none => simp at h
    case some al =>
      rw [wideData_restrict k alerts al hdf] at h
      simp only [Option.map_some', Option.some.injEq] at h
      subst h
      simp [trkRowsOf, keyOf, List.map_map, Function.comp]
  case upper =>
    cases hdf : DFrame.narrowData (restrictFrame k alerts) <;> rw [hdf] at h
    case none => simp at h
    case some al =>
      rw [narrowData_restrict k alerts al hdf] at h
      simp only [Option.map_some', Option.some.injEq] at h
      subst h
      simp [upperRowsOf, exKey, List.map_map, Function.comp]
  case uppervalid =>
    cases hdf : DFrame.narrowData (restrictFrame k alerts) <;> rw [hdf] at h
    case none => simp at h
    case some al =>
      rw [narrowData_restrict k alerts al hdf] at h
      simp only [Option.map_some', Option.some.injEq] at h
      subst h
      simp [uppervalidRowsOf, exKey, List.map_map, Function.comp]
  case tns =>
    cases hdf : DFrame.wideData (restrictFrame k alerts) <;> rw [hdf] at h
    case none => simp at h
    case some al =>
      rw [wideData_restrict k alerts al hdf] at h
      simp only [Option.map_some', Option.some.injEq] at h
      subst h
      simp [tnsRowsOf, keyOf, List.map_map, Function.comp]
  case dflt =>
    cases hdf : DFrame.wideData (restrictFrame k alerts) <;> rw [hdf] at h
    case none => simp at h
    case some al =>
      rw [wideData_restrict k alerts al hdf] at h
      simp only [Option.map_some', Option.some.injEq] at h
      subst h
      simp [defaultRowsOf, keyOf, List.map_map, Function.comp]

theorem tok_ne_of_dispatch {tok : String} {b : Branch} (hb : dispatchTok tok = b)
    (t : String) (ht : dispatchTok t ≠ b) : tok ≠ t := fun he => ht (he ▸ hb)

theorem dispatch_upper_eq {tok : String} (hb : dispatchTok tok = Branch.upper) :
    tok = "upper" := by
  simp only [dispatchTok] at hb
  split_ifs at hb
  all_goals simp_all

theorem dispatch_uppervalid_eq {tok : String} (hb : dispatchTok tok = Branch.uppervalid) :
    tok = "uppervalid" := by
  simp only [dispatchTok] at hb
  split_ifs at hb
  all_goals simp_all

theorem filter_partition_length {α : Type} (p : α → Bool) (l : List α) :
    (l.filter fun a => !(p a)).length + (l.filter p).length = l.length := by
  induction l with
  | nil => rfl
  | cons a t ih => by_cases h : p a <;> simp [List.filter_cons, h, ← ih] <;> omega

theorem isNotNull_iff {v : Val} : isNotNull v = true ↔ v ≠ Val.null := by
  cases v <;> simp [isNotNull]

theorem isNotNull_false_iff {v : Val} : isNotNull v = false ↔ v = Val.null := by
  cases v <;> simp [isNotNull]

/-- C3: the first underscore-delimited token of the index-kind identifier
alone determines the dispatch branch (pixel by the `pixel` prefix, and
`class`, `ssnamenr`, `tracklet`, `upper`, `uppervalid`, `tns` by
equality), and an identifier whose first token matches none of the
recognized kinds falls through to the default branch, whose rows carry a
key built from all token-named columns and the common projection. -/
theorem dispatch_first_token :
    (∀ k1 k2 : String, firstTok k1 = firstTok k2 → branchOf k1 = branchOf k2) ∧
    (∀ k : String, startsWithPix (firstTok k) = true → branchOf k = Branch.pixel) ∧
    (∀ k : String, firstTok k = "class" → branchOf k = Branch.cls) ∧
    (∀ k : String, firstTok k = "ssnamenr" → branchOf k = Branch.ssn) ∧
    (∀ k : String, firstTok k = "tracklet" → branchOf k = Branch.trk) ∧
    (∀ k : String, firstTok k = "upper" → branchOf k = Branch.upper) ∧
    (∀ k : String, firstTok k = "uppervalid" → branchOf k = Branch.uppervalid) ∧
    (∀ k : String, firstTok k = "tns" → branchOf k = Branch.tns) ∧
    (∀ (env : Env) (k : String) (alerts : List Alert),
      branchOf k = Branch.dflt → hasUpper k = false →
      runIndex env k alerts =
        some ⟨env.scienceDbName ++ "." ++ firstTok k, k,
          defaultRowsOf (splitOnUS k) alerts⟩) := by
  refine ⟨?_, ?_, ?_, ?_, ?_, ?_, ?_, ?_, ?_⟩
  · intro k1 k2 hk; rw [branchOf, branchOf, hk]
  · intro k hp; rw [branchOf]; simp [dispatchTok, hp]
  · intro k hk; rw [branchOf, hk]; decide
  · intro k hk; rw [branchOf, hk]; decide
  · intro k hk; rw [branchOf, hk]; decide
  · intro k hk; rw [branchOf, hk]; decide
  · intro k hk; rw [branchOf, hk]; decide
  · intro k hk; rw [branchOf, hk]; decide
  · intro env k alerts hd hU; exact run_dflt env k alerts hd hU

/-- Witness for C3: the unrecognized identifier `candid_jd` falls through
to the default branch on a concrete night. -/
theorem dispatch_first_token_witness :
    runIndex env0 "candid_jd" [a0] =
      some ⟨env0.scienceDbName ++ "." ++ firstTok "candid_jd", "candid_jd",
        defaultRowsOf (splitOnUS "candid_jd") [a0]⟩ :=
  dispatch_first_token.2.2.2.2.2.2.2.2 env0 "candid_jd" [a0] (by decide) (by decide)

/-- C8: for every index kind, the produced table name is the configured
database name, a dot, and the first token of the identifier, and the
row-key column name is the full identifier, except for the `upper` and
`uppervalid` kinds where it is `objectId_jd`. -/
theorem table_and_rowkey_names (env : Env) (k : String) (alerts : List Alert) (out : Output)
    (h : runIndex env k alerts = some out) :
    out.tableName = env.scienceDbName ++ "." ++ firstTok k ∧
    out.rowKeyName =
      (if firstTok k = "upper" ∨ firstTok k = "uppervalid" then "objectId_jd" else k) := by
  simp only [runIndex] at h
  cases hb : dispatchTok (firstTok k) <;> rw [hb] at h
  case pixel =>
    have h1 : firstTok k ≠ "upper" := tok_ne_of_dispatch hb "upper" (by decide)
    have h2 : firstTok k ≠ "uppervalid" := tok_ne_of_dispatch hb "uppervalid" (by decide)
    cases hn : nsideOf (firstTok k) <;> rw [hn] at h
    case none => simp at h
    case some nside =>
      cases hdf : DFrame.wideData (restrictFrame k alerts) <;> rw [hdf] at h
      case none => simp at h
      case some al =>
        simp only [Option.some.injEq] at h
        subst h
        simp [h1, h2]
  case cls =>
    have h1 : firstTok k ≠ "upper" := tok_ne_of_dispatch hb "upper" (by decide)
    have h2 : firstTok k ≠ "uppervalid" := tok_ne_of_dispatch hb "uppervalid" (by decide)
    cases hdf : DFrame.wideData (restrictFrame k alerts) <;> rw [hdf] at h
    case none => simp at h
    case some al =>
      simp only [Option.map_some', Option.some.injEq] at h
      subst h
      simp [h1, h2]
  case ssn =>
    have h1 : firstTok k ≠ "upper" := tok_ne_of_dispatch hb "upper" (by decide)
    have h2 : firstTok k ≠ "uppervalid" := tok_ne_of_dispatch hb "uppervalid" (by decide)
    cases hdf : DFrame.wideData (restrictFrame k alerts) <;> rw [hdf] at h
    case none => simp at h
    case some al =>
      simp only [Option.map_some', Option.some.injEq] at h
      subst h
      simp [h1, h2]
  case trk =>
    have h1 : firstTok k ≠ "upper" := tok_ne_of_dispatch hb "upper" (by decide)
    have h2 : firstTok k ≠ "uppervalid" := tok_ne_of_dispatch hb "uppervalid" (by decide)
    cases hdf : DFrame.wideData (restrictFrame k alerts) <;> rw [hdf] at h
    case none => simp at h
    case some al =>
      simp only [Option.map_some', Option.some.injEq] at h
      subst h
      simp [h1, h2]
  case upper =>
    have ht : firstTok k = "upper" := dispatch_upper_eq hb
    cases hdf : DFrame.narrowData (restrictFrame k alerts) <;> rw [hdf] at h
    case none => simp at h
    case some al =>
      simp only [Option.map_some', Option.some.injEq] at h
      subst h
      simp [ht]
  case uppervalid =>
    have ht : firstTok k = "uppervalid" := dispatch_uppervalid_eq hb
    cases hdf : DFrame.narrowData (restrictFrame k alerts) <;> rw [hdf] at h
    case none => simp at h
    case some al =>
      simp only [Option.map_some', Option.some.injEq] at h
      subst h
      simp [ht]
  case tns =>
    have h1 : firstTok k ≠ "upper" := tok_ne_of_dispatch hb "upper" (by decide)
    have h2 : firstTok k ≠ "uppervalid" := tok_ne_of_dispatch hb "uppervalid" (by decide)
    cases hdf : DFrame.wideData (restrictFrame k alerts) <;> rw [hdf] at h
    case none => simp at h
    case some al =>
      simp only [Option.map_some', Option.some.injEq] at h
      subst h
      simp [h1, h2]
  case dflt =>
    have h1 : firstTok k ≠ "upper" := tok_ne_of_dispatch hb "upper" (by decide)
    have h2 : firstTok k ≠ "uppervalid" := tok_ne_of_dispatch hb "uppervalid" (by decide)
    cases hdf : DFrame.wideData (restrictFrame k alerts) <;> rw [hdf] at h
    case none => simp at h
    case some al =>
      simp only [Option.map_some', Option.some.injEq] at h
      subst h
      simp [h1, h2]

/-- C2: the `upper` and `uppervalid` outputs partition the exploded
per-detection rows by presence of `magpsf`: every exploded row goes to
`upper` exactly when `magpsf` is null, to `uppervalid` exactly when it is
present, none lands in both, and none is dropped from both. -/
theorem upper_uppervalid_partition (env : Env) (ku kv : String) (alerts : List Alert)
    (hu : firstTok ku = "upper") (hv : firstTok kv = "uppervalid") :
    runIndex env ku alerts =
      some ⟨env.scienceDbName ++ "." ++ "upper", "objectId_jd", upperRowsOf alerts⟩ ∧
    runIndex env kv alerts =
      some ⟨env.scienceDbName ++ "." ++ "uppervalid", "objectId_jd",
        uppervalidRowsOf alerts⟩ ∧
    ((explodedRows alerts).filter fun r => !(isNotNull r.magpsf)).length +
      ((explodedRows alerts).filter fun r => isNotNull r.magpsf).length =
      (explodedRows alerts).length ∧
    ∀ r ∈ explodedRows alerts,
      ((r ∈ (explodedRows alerts).filter fun r => !(isNotNull r.magpsf)) ↔
        r.magpsf = Val.null) ∧
      ((r ∈ (explodedRows alerts).filter fun r => isNotNull r.magpsf) ↔
        r.magpsf ≠ Val.null) := by
  refine ⟨run_upper env ku alerts hu, run_uppervalid env kv alerts hv,
    filter_partition_length (fun r => isNotNull r.magpsf) (explodedRows alerts), ?_⟩
  intro r hr
  constructor
  · rw [List.mem_filter]
    simp [hr, isNotNull_false_iff]
  · rw [List.mem_filter]
    simp [hr, isNotNull_iff]

/-- Witness for C2: the two branches applied to a concrete night with one
upper limit and one valid history measurement. -/
theorem upper_uppervalid_partition_witness :
    runIndex env0 "upper" [a0, a1] =
      some ⟨env0.scienceDbName ++ "." ++ "upper", "objectId_jd", upperRowsOf [a0, a1]⟩ :=
  (upper_uppervalid_partition env0 "upper" "uppervalid" [a0, a1]
    (by decide) (by decide)).1

/-- C5: a record reaches the tracklet output exactly when its tracklet
value is a non-null string different from the sentinels `''` and
`'null'`; null tracklets are dropped by the null-safe filters. -/
theorem tracklet_filter_spec (env : Env) (k : String) (alerts : List Alert)
    (hd : firstTok k = "tracklet") (hU : hasUpper k = false) :
    runIndex env k alerts =
      some ⟨env.scienceDbName ++ "." ++ "tracklet", k, trkRowsOf (splitOnUS k) alerts⟩ ∧
    ∀ a ∈ alerts,
      ((a ∈ (alerts.filter fun x => trackletNeq x.tracklet "null").filter
          fun x => trackletNeq x.tracklet "") ↔
        ∃ s, a.tracklet = some s ∧ s ≠ "" ∧ s ≠ "null") := by
  refine ⟨run_trk env k alerts hd hU, ?_⟩
  intro a ha
  rw [List.mem_filter, List.mem_filter]
  cases hs : a.tracklet with
  | none => simp [trackletNeq, hs, ha]
  | some s =>
    simp only [trackletNeq, hs, ha, true_and, bne_iff_ne, ne_eq, Option.some.injEq]
    constructor
    · rintro ⟨hn, he⟩; exact ⟨s, rfl, he, hn⟩
    · rintro ⟨t, ht, he, hn⟩; cases ht; exact ⟨hn, he⟩

/-- Witness for C5: on a concrete night, only the record with a genuine
tracklet identifier survives. -/
theorem tracklet_filter_spec_witness :
    runIndex env0 "tracklet" [a0, a1, a2, a3] =
      some ⟨env0.scienceDbName ++ "." ++ "tracklet", "tracklet",
        trkRowsOf (splitOnUS "tracklet") [a0, a1, a2, a3]⟩ :=
  (tracklet_filter_spec env0 "tracklet" [a0, a1, a2, a3] (by decide) (by decide)).1

/-- C6: the minor-planet output keeps exactly the records whose `roid`
flag equals 3. -/
theorem ssnamenr_filter_spec (env : Env) (k : String) (alerts : List Alert)
    (hd : firstTok k = "ssnamenr") (hU : hasUpper k = false) :
    runIndex env k alerts =
      some ⟨env.scienceDbName ++ "." ++ "ssnamenr", k, ssnRowsOf (splitOnUS k) alerts⟩ ∧
    ∀ a ∈ alerts, (a ∈ alerts.filter fun x => x.roid == 3) ↔ a.roid = 3 := by
  refine ⟨run_ssn env k alerts hd hU, ?_⟩
  intro a ha
  rw [List.mem_filter]
  simp [ha]

/-- Witness for C6: on a concrete night, exactly the `roid == 3` records
survive the minor-planet filter. -/
theorem ssnamenr_filter_spec_witness :
    runIndex env0 "ssnamenr_jd" [a0, a1, a2, a3] =
      some ⟨env0.scienceDbName ++ "." ++ "ssnamenr", "ssnamenr_jd",
        ssnRowsOf (splitOnUS "ssnamenr_jd") [a0, a1, a2, a3]⟩ :=
  (ssnamenr_filter_spec env0 "ssnamenr_jd" [a0, a1, a2, a3] (by decide) (by decide)).1

/-- C10: the column-subset restriction tests the substring `upper`
against the whole identifier, not the first token: every identifier
containing `upper` anywhere is narrowed to `objectId` plus the history
arrays, even when dispatch (driven by the first token) selects a branch
that needs the wide projection — for `class_upper` the classification
branch then fails on the narrowed frame. -/
theorem upper_substring_restriction :
    (∀ (k : String) (alerts : List Alert),
      hasUpper k = true → restrictFrame k alerts = DFrame.narrow alerts) ∧
    hasUpper "class_upper" = true ∧
    branchOf "class_upper" = Branch.cls ∧
    (∀ (env : Env) (alerts : List Alert), runIndex env "class_upper" alerts = none) := by
  refine ⟨?_, by decide, by decide, ?_⟩
  · intro k alerts hk; simp [restrictFrame, hk]
  · intro env alerts
    simp only [runIndex]
    rw [show dispatchTok (firstTok "class_upper") = Branch.cls from by decide]
    rw [show restrictFrame "class_upper" alerts = DFrame.narrow alerts from by
          simp [restrictFrame, show hasUpper "class_upper" = true from by decide]]
    simp [DFrame.wideData]

/-- Witness for C10: concrete identifiers exercising the narrowing and
the resulting failure of the classification branch. -/
theorem upper_substring_restriction_witness :
    restrictFrame "tns_upper" [a0] = DFrame.narrow [a0] ∧
    runIndex env0 "class_upper" [a0] = none :=
  ⟨upper_substring_restriction.1 "tns_upper" [a0] (by decide),
   upper_substring_restriction.2.2.2 env0 [a0]⟩

/-- C1 counterexample: for the index kind `pixel128` and the scenario
alert (ra = 10.0, dec = 20.0), the single output row's key is the string
of the HEALPix pixel index alone ("0" under the sample projection), not
the pixel index followed by an underscore and the token `pixel128` as
the claim states. -/
theorem pixel_key_shape_cex :
    (runIndex env0 "pixel128" [a0]).map (fun o => o.rows) =
      some [⟨intStr (env0.ang2pix a0.ra a0.dec 128), [("objectId", Val.s "ZTF1")]⟩] ∧
    intStr (env0.ang2pix a0.ra a0.dec 128) = "0" ∧
    ("0" : String) ≠ "0" ++ "_" ++ "pixel128" :=
  ⟨by decide, by decide, by decide⟩

/-- C1 (amended): for the pixel kind, a `pixel<N>` column holding the
HEALPix index of (ra, dec) is added, each output row's key is
`concat_ws('_')` of the values of the token-named columns — for the
single-token identifier `pixel128` this is the decimal pixel index
string alone — and the output has exactly the row-key column plus the
object identifier. -/
theorem pixel_branch_spec (env : Env) (k : String) (alerts : List Alert) (nside : Nat)
    (hp : startsWithPix (firstTok k) = true) (hn : nsideOf (firstTok k) = some nside)
    (hU : hasUpper k = false) :
    runIndex env k alerts =
      some ⟨env.scienceDbName ++ "." ++ firstTok k, k,
        alerts.map fun a =>
          ⟨keyOf a [((splitOnUS k).headD "", Val.i (env.ang2pix a.ra a.dec nside))]
             (splitOnUS k),
           [("objectId", Val.s a.objectId)]⟩⟩ := by
  rw [run_pixel env k alerts nside hp hn hU]; rfl

/-- Witness for C1 (amended): the end-to-end scenario, one alert with
ra = 10.0 and dec = 20.0 under the `pixel128` kind. -/
theorem pixel_branch_spec_witness :
    runIndex env0 "pixel128" [a0] =
      some ⟨env0.scienceDbName ++ "." ++ firstTok "pixel128", "pixel128",
        [a0].map fun a =>
          ⟨keyOf a [((splitOnUS "pixel128").headD "",
              Val.i (env0.ang2pix a.ra a.dec 128))] (splitOnUS "pixel128"),
           [("objectId", Val.s a.objectId)]⟩⟩ :=
  pixel_branch_spec env0 "pixel128" [a0] 128 (by decide) (by decide) (by decide)

/-- C7 counterexample: `extract_fink_classification` receives thirteen
inputs, not twelve, and for the single-token identifier `class` the row
key is the bare classification label, not the label followed by an
underscore and the index token. -/
theorem class_inputs_cex :
    (classInputs a0).length = 13 ∧ ¬((classInputs a0).length = 12) ∧
    (runIndex env0 "class" [a0]).map (fun o => o.rows.map Row.key) = some ["SN"] ∧
    env0.classify (classInputs a0) = "SN" ∧
    ("SN" : String) ≠ "SN" ++ "_" ++ "class" :=
  ⟨by decide, by decide, by decide, by decide, by decide⟩

/-- C7 (amended): the classification label is computed from the fixed
ordered list of thirteen classifier/flag inputs (cross-match label,
solar-system flag, microlensing flag, two neural-net scores, one
random-forest score, detection-history count, real/bogus score,
star/galaxy score, detection timestamp, first-detection timestamp,
kilonova score, tracklet id — the detection-history count precedes the
two quality scores as in the source), the row key is `concat_ws('_')` of
the token-named column values whose first token's column holds the label
(the bare label for the single-token `class` identifier), and the output
columns are the row key plus the fixed common projection. -/
theorem class_branch_spec (env : Env) (k : String) (alerts : List Alert)
    (hd : firstTok k = "class") (hU : hasUpper k = false) :
    (∀ a : Alert, classInputs a =
      [a.cdsxmatch, Val.i a.roid, a.mulens, a.snn_snia_vs_nonia, a.snn_sn_vs_all,
       a.rf_snia_vs_nonia, a.ndethist, a.drb, a.classtar, Val.q a.jd, a.jdstarthist,
       a.rf_kn_vs_nonkn, optStr a.tracklet] ∧ (classInputs a).length = 13) ∧
    runIndex env k alerts =
      some ⟨env.scienceDbName ++ "." ++ "class", k,
        alerts.map fun a =>
          ⟨keyOf a [("class", Val.s (env.classify (classInputs a)))] (splitOnUS k),
           commonProj a⟩⟩ :=
  ⟨fun _ => ⟨rfl, rfl⟩, by rw [run_cls env k alerts hd hU]; rfl⟩

/-- Witness for C7 (amended): the classification branch on a concrete
night with the two-token identifier `class_jd`. -/
theorem class_branch_spec_witness :
    runIndex env0 "class_jd" [a0] =
      some ⟨env0.scienceDbName ++ "." ++ "class", "class_jd",
        [a0].map fun a =>
          ⟨keyOf a [("class", Val.s (env0.classify (classInputs a)))] (splitOnUS "class_jd"),
           commonProj a⟩⟩ :=
  (class_branch_spec env0 "class_jd" [a0] (by decide) (by decide)).2

/-- C9: for every index kind, the row key of each output row is
`concat_ws('_')` of the branch's declared per-record key source values
(a pure function of the declared source columns), and when those
rendered source tuples are pairwise distinct (the fields expected unique
per alert, respectively unique (objectId, jd) pairs for the exploded
kinds) and underscore-free, no two rows of the produced table share a
row key. -/
theorem rowkey_uniqueness (env : Env) (k : String) (alerts : List Alert) (out : Output)
    (h : runIndex env k alerts = some out)
    (hne : ∀ l ∈ keySources env k alerts, renderKey l ≠ [])
    (hus : ∀ l ∈ keySources env k alerts, ∀ s ∈ renderKey l, noUS s)
    (hdist : ((keySources env k alerts).map renderKey).Pairwise (· ≠ ·)) :
    out.rows.map Row.key = (keySources env k alerts).map concatWs ∧
    (out.rows.map Row.key).Pairwise (· ≠ ·) := by
  have hk := keys_eq env k alerts out h
  refine ⟨hk, ?_⟩
  rw [hk]
  have hsplit : (keySources env k alerts).map concatWs =
      ((keySources env k alerts).map renderKey).map joinWs := by
    rw [List.map_map]; rfl
  rw [hsplit]
  apply pairwise_join_of_pairwise
  · intro l hl
    obtain ⟨v, hv, rfl⟩ := List.mem_map.mp hl
    exact hne v hv
  · intro l hl
    obtain ⟨v, hv, rfl⟩ := List.mem_map.mp hl
    exact hus v hv
  · exact hdist

/-- Witness for C9: two concrete tracklet records with distinct,
underscore-free tracklet identifiers produce distinct row keys. -/
theorem rowkey_uniqueness_witness :
    (trkOut0.rows.map Row.key).Pairwise (· ≠ ·) :=
  (rowkey_uniqueness env0 "tracklet" [a0, a5] trkOut0
    (by decide) (by decide) (by decide) (by decide)).2

/-- Witness for C8: the concrete tracklet run carries the table name
`fink.tracklet` and the row-key column named by the full identifier. -/
theorem table_and_rowkey_names_witness :
    trkOut0.tableName = env0.scienceDbName ++ "." ++ firstTok "tracklet" ∧
    trkOut0.rowKeyName =
      (if firstTok "tracklet" = "upper" ∨ firstTok "tracklet" = "uppervalid"
        then "objectId_jd" else "tracklet") :=
  table_and_rowkey_names env0 "tracklet" [a0, a5] trkOut0 (by decide)

/-- C4 (amended): every pushed TNS row had a non-empty matched-type
label; that label was accepted during the cross-match at the position of
the first alert of the batch sharing the row's object identifier, whose
angular separation to its nearest catalog entry is strictly below
1.5/3600 degrees (the row's own position can differ, see the
counterexample); and the `tns` label column is dropped before the push,
so the pushed columns are exactly the common projection. -/
theorem tns_branch_spec (env : Env) (k : String) (alerts : List Alert)
    (hd : firstTok k = "tns") (hU : hasUpper k = false) :
    runIndex env k alerts =
      some ⟨env.scienceDbName ++ "." ++ "tns", k, tnsRowsOf env (splitOnUS k) alerts⟩ ∧
    "tns" ∉ commonCols ∧
    (∀ r ∈ tnsRowsOf env (splitOnUS k) alerts, r.cols.map Prod.fst = commonCols) ∧
    (∀ p ∈ (tnsTagged env alerts).filter fun p => p.2 != "",
      p.2 ≠ "" ∧
      ∃ b ∈ alerts, b.objectId = p.1.objectId ∧ p.2 = rawLabel env b ∧
        ∃ e, nearestTns env.sep (tnsFiltered env.tnsCatalog) (b.ra, b.dec) = some e ∧
          env.sep (b.ra, b.dec) (e.1, e.2.1) < 1.5 / 3600 ∧ p.2 = e.2.2) := by
  refine ⟨run_tns env k alerts hd hU, by decide, ?_, ?_⟩
  · intro r hr
    simp only [tnsRowsOf, List.mem_map] at hr
    obtain ⟨p, hp, rfl⟩ := hr
    show (commonCols.map fun c => (c, getCol p.1 c)).map Prod.fst = commonCols
    rw [List.map_map]
    exact List.map_id'' (fun _ => rfl) commonCols
  · intro p hp
    rw [List.mem_filter] at hp
    obtain ⟨hpm, hpe⟩ := hp
    have hpe' : p.2 ≠ "" := by simpa using hpe
    refine ⟨hpe', ?_⟩
    simp only [tnsTagged, List.mem_map] at hpm
    obtain ⟨a, ha, rfl⟩ := hpm
    have hl : tnsLabel env alerts a ≠ "" := hpe'
    cases hf : alerts.find? (fun b => b.objectId == a.objectId) with
    | none => exact absurd (by simp [tnsLabel, hf]) hl
    | some b =>
      have hbmem : b ∈ alerts := List.mem_of_find?_eq_some hf
      have hbid : (b.objectId == a.objectId) = true := (List.find?_eq_some.mp hf).1
      have heq : tnsLabel env alerts a = rawLabel env b := by simp [tnsLabel, hf]
      have hrl : rawLabel env b ≠ "" := heq ▸ hl
      cases hne : nearestTns env.sep (tnsFiltered env.tnsCatalog) (b.ra, b.dec) with
      | none => exact absurd (by simp [rawLabel, hne]) hrl
      | some e =>
        by_cases hlt : env.sep (b.ra, b.dec) (e.1, e.2.1) < 1.5 / 3600
        · refine ⟨b, hbmem, by simpa using hbid, heq, e, hne, hlt, ?_⟩
          rw [heq]
          simp [rawLabel, hne, hlt]
        · exact absurd (by simp [rawLabel, hne, hlt]) hrl

/-- Witness for C4 (amended): the TNS branch on a concrete night. -/
theorem tns_branch_spec_witness :
    runIndex env0 "tns" [a0] =
      some ⟨env0.scienceDbName ++ "." ++ "tns", "tns",
        tnsRowsOf env0 (splitOnUS "tns") [a0]⟩ :=
  (tns_branch_spec env0 "tns" [a0] (by decide) (by decide)).1

/-- C4 counterexample: with two detections sharing one object identifier
(`a4a` at the catalog position, `a4b` one degree away), both rows are
pushed — the label lookup keys on the object identifier and returns the
first row's label — yet the separation of `a4b` to its matched catalog
entry is not below 1.5/3600 degrees, refuting the per-row separation
bound of the claim. -/
theorem tns_separation_cex :
    (runIndex envC4 "tns" [a4a, a4b]).map (fun o => o.rows.length) = some 2 ∧
    ((tnsTagged envC4 [a4a, a4b]).filter fun p => p.2 != "").map Prod.snd =
      ["SN Ia", "SN Ia"] ∧
    tnsLabel envC4 [a4a, a4b] a4b = "SN Ia" ∧
    nearestTns envC4.sep (tnsFiltered envC4.tnsCatalog) (a4b.ra, a4b.dec) =
      some (0, 0, "SN Ia") ∧
    ¬(envC4.sep (a4b.ra, a4b.dec) (0, 0) < 1.5 / 3600) := by
  have hnearA : nearestTns envC4.sep (tnsFiltered envC4.tnsCatalog) (a4a.ra, a4a.dec) =
      some (0, 0, "SN Ia") := by decide
  have hrawA : rawLabel envC4 a4a = "SN Ia" := by
    simp only [rawLabel, hnearA]
    norm_num [envC4, a4a]
  have hfindB : [a4a, a4b].find? (fun b => b.objectId == a4b.objectId) = some a4a :=
    List.find?_cons_of_pos _ (by decide)
  have hfindA : [a4a, a4b].find? (fun b => b.objectId == a4a.objectId) = some a4a :=
    List.find?_cons_of_pos _ (by decide)
  have hlabB : tnsLabel envC4 [a4a, a4b] a4b = "SN Ia" := by
    simp [tnsLabel, hfindB, hrawA]
  have hlabA : tnsLabel envC4 [a4a, a4b] a4a = "SN Ia" := by
    simp [tnsLabel, hfindA, hrawA]
  have hsepb : envC4.sep (a4b.ra, a4b.dec) (0, 0) = 1 := by norm_num [envC4, a4b]
  refine ⟨?_, ?_, hlabB, by decide, ?_⟩
  · rw [run_tns envC4 "tns" [a4a, a4b] (by decide) (by decide)]
    simp [tnsRowsOf, tnsTagged, hlabA, hlabB]
  · simp [tnsTagged, hlabA, hlabB]
  · rw [hsepb]; norm_num

/-- C9 counterexample: two records whose declared key source tuples are
distinct (distinct objectId and cross-match values, all their key fields
unique per alert) still produce the same row key `a_b_c` under the
default branch for the identifier `objectId_cdsxmatch`, because
`concat_ws('_')` is ambiguous when a source value itself contains an
underscore; the uniqueness precondition of the claim is therefore not
sufficient as stated. -/
theorem rowkey_collision_cex :
    (runIndex env0 "objectId_cdsxmatch" [a6, a7]).map (fun o => o.rows.map Row.key) =
      some ["a_b_c", "a_b_c"] ∧
    (a6.objectId, a6.cdsxmatch) ≠ (a7.objectId, a7.cdsxmatch) ∧
    keySources env0 "objectId_cdsxmatch" [a6, a7] =
      [[Val.s "a_b", Val.s "c"], [Val.s "a", Val.s "b_c"]] :=
  ⟨by decide, by decide, by decide⟩
